import Mathlib

/-!
Verification of the JSON-AST SQL validator (`pkg/vet`) of sqlvet.

The definitions below are a shallow embedding of `pkg/vet/astjson.go` and
`pkg/vet/vet.go`.  The parser's JSON output is modelled by the inductive
`Json`; Go's possibly-nil `map[string]any` (`jsonNode`) is `Option JObj`;
Go's possibly-nil `[]any` is `Option (List Json)`.  Go maps used as
dictionaries (`Schema.Tables`, `InnerSchema.Tables`, the `usedTables` map in
`validateTableColumns`) are association lists with insert-replace, and map
iteration is list-order iteration (the Go maps here are built with distinct
keys, and every iteration in the source is order-insensitive except
`nodeType`, which reads the single key of a wrapper object: it is modelled
as reading the first field).

`InnerSchema.Tables` is one shared mutable map in the source (every derived
context copies the same map reference), so it is threaded through every
function as an explicit state `InnerSt`; writing to it while it is nil
panics in Go and is modelled by `RunErr.goPanic`, as is the unchecked type
assertion in `jsonValidateInsert`.  Go's error returns are `RunErr.goErr`
with the exact message strings of the source.  Recursion over the untyped
JSON tree is fuel-indexed; running out of fuel is the artificial outcome
`RunErr.fuelOut`, which no Go execution exhibits (every claim is stated so
that fuel exhaustion never counts as evidence).
-/

inductive Json where
  | null
  | str (s : String)
  | num (n : Int)
  | bool (b : Bool)
  | arr (items : List Json)
  | obj (fields : List (String × Json))
deriving Repr

/-- A JSON object body: the field list of `Json.obj`. -/
abbrev JObj := List (String × Json)

/-- Association-list lookup: first binding wins (Go map lookup; the maps
built by this code have distinct keys). -/
def alLookup {α : Type} : List (String × α) → String → Option α
  | [], _ => none
  | (k, v) :: rest, key => if k == key then some v else alLookup rest key

/-- Association-list insert-replace (Go `m[k] = v`). -/
def alInsert {α : Type} : List (String × α) → String → α → List (String × α)
  | [], k, v => [(k, v)]
  | (k0, v0) :: rest, k, v =>
    if k0 == k then (k, v) :: rest else (k0, v0) :: alInsert rest k v

/-- Go `m[k]` on a possibly-nil map: missing key and nil map both give the
nil interface, i.e. `none`; a JSON null field gives `some Json.null`,
which every accessor treats like the nil interface. -/
def jfield (m : Option JObj) (k : String) : Option Json :=
  match m with
  | none => none
  | some fields => alLookup fields k

/-- Go `v != nil` on an `any` coming out of a JSON map: absent keys and
JSON null both unmarshal to the nil interface. -/
def isNilAny : Option Json → Bool
  | none => true
  | some Json.null => true
  | _ => false

/-- Go `_, ok := m[k]`: key presence, regardless of the value. -/
def hasKey (m : Option JObj) (k : String) : Bool :=
  match m with
  | none => false
  | some fields => (alLookup fields k).isSome

/-- `asNode` of astjson.go: `m, _ := v.(map[string]any)`. -/
def asNode : Option Json → Option JObj
  | some (Json.obj fields) => some fields
  | _ => none

/-- `asList` of astjson.go: `a, _ := v.([]any)`. -/
def asList : Option Json → Option (List Json)
  | some (Json.arr items) => some items
  | _ => none

/-- `getStringField` of astjson.go. -/
def getStringField (obj : Option JObj) (key : String) : String :=
  match jfield obj key with
  | some (Json.str s) => s
  | _ => ""

/-- `getNumberField` of astjson.go (the `float64` to `int32` conversion is
modelled as the integer itself: the parser's location and placeholder
numbers are small). -/
def getNumberField (obj : Option JObj) (key : String) : Int :=
  match jfield obj key with
  | some (Json.num n) => n
  | _ => 0

/-- `getBoolField` of astjson.go. -/
def getBoolField (obj : Option JObj) (key : String) : Bool :=
  match jfield obj key with
  | some (Json.bool b) => b
  | _ => false

/-- `jNode` of astjson.go: first key whose value is a (non-nil) object. -/
def jNode (m : Option JObj) : List String → Option JObj
  | [] => none
  | k :: rest =>
    match asNode (jfield m k) with
    | some n => some n
    | none => jNode m rest

/-- `jList` of astjson.go: first key whose value is a (non-nil) array. -/
def jList (m : Option JObj) : List String → Option (List Json)
  | [] => none
  | k :: rest =>
    match asList (jfield m k) with
    | some l => some l
    | none => jList m rest

/-- `getRelationRangeVar` of astjson.go. -/
def getRelationRangeVar (m : Option JObj) : Option JObj :=
  match asNode (jfield m "RangeVar") with
  | some rv => some rv
  | none => m

/-- `nodeType` of astjson.go: the single key of a wrapper object and its
body.  Go iterates the map; wrapper nodes have exactly one key, modelled as
the first field. -/
def nodeType (n : Option JObj) : String × Option JObj :=
  match n with
  | some ((k, v) :: _) => (k, asNode (some v))
  | _ => ("", none)

/-- `schema.Column` (package schema). -/
structure Column where
  name : String
  typ : String
deriving DecidableEq, Repr

/-- `schema.Table` (package schema); `columns` is the Go map as an
association list. -/
structure Table where
  name : String
  columns : List (String × Column)
  readOnly : Bool
deriving DecidableEq, Repr

/-- `TableUsed` of vet.go. -/
structure TableUsed where
  name : String
  aliasName : String
deriving DecidableEq, Repr

/-- `ColumnUsed` of vet.go. -/
structure ColumnUsed where
  column : String
  table : String
  location : Int
deriving DecidableEq, Repr

/-- `QueryParam` of vet.go. -/
structure QueryParam where
  number : Int
deriving DecidableEq, Repr

/-- `ParseResult` of vet.go.  `postponed` models the `*PostponedNodes`
pointer: `none` is the nil pointer, `some l` a struct whose
`RangeSubselectNodes` is `l` (the source never appends to that slice, so
`PostponedNodes.Parse` is a no-op over an empty list). -/
structure ParseResult where
  columns : List ColumnUsed
  tables : List TableUsed
  params : List QueryParam
  postponed : Option (List Json)
deriving Repr

def ParseResult.empty : ParseResult := ⟨[], [], [], none⟩

/-- `VetContext` of vet.go, minus the shared `InnerSchema` map, which is
threaded separately as mutable state (`InnerSt`).  `schemaTables = none`
models a nil `Schema.Tables` map. -/
structure VetContext where
  schemaTables : Option (List (String × Table))
  usedTables : List TableUsed
deriving DecidableEq, Repr

/-- The state of the shared `InnerSchema.Tables` map; `none` is a nil map
(writing to it panics in Go). -/
abbrev InnerSt := Option (List (String × Table))

/-- How a Go call ends other than by returning a value: an `error` return,
a runtime panic, or the embedding's artificial fuel exhaustion. -/
inductive RunErr where
  | goErr (msg : String)
  | goPanic
  | fuelOut
deriving DecidableEq, Repr

/-- Result of a validation step: a value plus the updated `InnerSchema`
state, or an abnormal end. -/
inductive VRes (α : Type) where
  | ok (val : α) (inner : InnerSt)
  | err (e : RunErr)
deriving DecidableEq, Repr

/-- `AddQueryParam` of vet.go: ordered insert, ignoring duplicates. -/
def addQueryParam : List QueryParam → QueryParam → List QueryParam
  | [], p => [p]
  | q :: rest, p =>
    if q.number = p.number then q :: rest
    else if p.number < q.number then p :: q :: rest
    else q :: addQueryParam rest p

/-- `AddQueryParams` of vet.go. -/
def addQueryParams (target : List QueryParam) : List QueryParam → List QueryParam
  | [] => target
  | p :: rest => addQueryParams (addQueryParam target p) rest

/-- `validateTable` of vet.go. -/
def validateTable (ctx : VetContext) (tname : String) (notReadOnly : Bool) : Option String :=
  match ctx.schemaTables with
  | none => none
  | some ts =>
    match alLookup ts tname with
    | none => some ("invalid table name: " ++ tname)
    | some t =>
      if notReadOnly && t.readOnly then some ("read-only table: " ++ tname) else none

/-- The `usedTables` map construction loop of `validateTableColumns`:
InnerSchema first, then Schema; unknown name is an error; a non-empty alias
maps to the same table. -/
def buildUsedTables (sts its : List (String × Table)) (acc : List (String × Table)) :
    List TableUsed → Except String (List (String × Table))
  | [] => .ok acc
  | tu :: rest =>
    match (match alLookup its tu.name with
           | some t => some t
           | none => alLookup sts tu.name) with
    | none => .error ("invalid table name: " ++ tu.name)
    | some t =>
      let acc1 := alInsert acc tu.name t
      let acc2 := if tu.aliasName != "" then alInsert acc1 tu.aliasName t else acc1
      buildUsedTables sts its acc2 rest

/-- The column-resolution loop of `validateTableColumns`.  `tablesIn` is
the original `tables` slice, used only for the single-table error message
(Go indexes `tables[0]`; that branch is reachable only when `ut` is
non-empty, hence `tablesIn` non-empty). -/
def colsCheck (ut : List (String × Table)) (tablesIn : List TableUsed) :
    List ColumnUsed → Option String
  | [] => none
  | col :: rest =>
    if col.table != "" then
      match alLookup ut col.table with
      | none => some ("table `" ++ col.table ++ "` not available for query")
      | some t =>
        match alLookup t.columns col.column with
        | none => some ("column `" ++ col.column ++ "` is not defined in table `" ++ col.table ++ "`")
        | some _ => colsCheck ut tablesIn rest
    else
      if ut.any (fun p => (alLookup p.2.columns col.column).isSome) then
        colsCheck ut tablesIn rest
      else if ut.length == 1 then
        some ("column `" ++ col.column ++ "` is not defined in table `" ++
          (match tablesIn with | t0 :: _ => t0.name | [] => "") ++ "`")
      else
        some ("column `" ++ col.column ++ "` is not defined in any of the table available for query")

/-- `validateTableColumns` of vet.go. -/
def validateTableColumns (ctx : VetContext) (inner : InnerSt)
    (tables : List TableUsed) (cols : List ColumnUsed) : Option String :=
  match ctx.schemaTables, inner with
  | some sts, some its =>
    (match buildUsedTables sts its [] tables with
     | .error e => some e
     | .ok ut => colsCheck ut tables cols)
  | _, _ => none

/-- `jsonRangeVarToTableUsed` of astjson.go. -/
def jsonRangeVarToTableUsed (r : Option JObj) : TableUsed :=
  ⟨getStringField r "relname",
   match asNode (jfield r "alias") with
   | some a => getStringField (some a) "aliasname"
   | none => ""⟩

/-- `jsonColumnRefToColumnUsed` of astjson.go.  Single field: bare column;
two or more: fields[0] qualifies, fields[1] is the column; a non-`String`
column field (`A_Star` included) yields nothing. -/
def jsonColumnRefToColumnUsed (colRef : Option JObj) : Option ColumnUsed :=
  let loc := getNumberField colRef "location"
  match asList (jfield colRef "fields") with
  | none => none
  | some [] => none
  | some (f0 :: rest) =>
    let tbl : String :=
      match rest with
      | _ :: _ =>
        (match jfield (asNode (some f0)) "String" with
         | some v => if isNilAny (some v) then "" else getStringField (asNode (some v)) "sval"
         | none => "")
      | [] => ""
    let colField : Option JObj :=
      match rest with
      | f1 :: _ => asNode (some f1)
      | [] => asNode (some f0)
    match asNode (jfield colField "String") with
    | some s => some ⟨getStringField (some s) "sval", tbl, loc⟩
    | none => none

/-- `jsonGetColumnsFromNodeList` of astjson.go. -/
def jsonGetColumnsFromNodeList (n : Option JObj) : List ColumnUsed :=
  match asNode (jfield n "ColumnRef") with
  | some cr =>
    (match jsonColumnRefToColumnUsed (some cr) with
     | some cu => [cu]
     | none => [])
  | none => []

/-- `jsonGetColumnsFromSortClause` of astjson.go. -/
def jsonGetColumnsFromSortClause : List Json → List ColumnUsed
  | [] => []
  | it :: rest =>
    (match asNode (jfield (asNode (some it)) "SortBy") with
     | some sb =>
       (match asNode (jfield (asNode (jfield (some sb) "node")) "ColumnRef") with
        | some cr =>
          (match jsonColumnRefToColumnUsed (some cr) with
           | some cu => [cu]
           | none => [])
        | none => [])
     | none => [])
    ++ jsonGetColumnsFromSortClause rest

/-- `jsonGetColumnsFromReturningList` of astjson.go. -/
def jsonGetColumnsFromReturningList : List Json → List ColumnUsed
  | [] => []
  | it :: rest =>
    (match asNode (jfield (asNode (some it)) "ResTarget") with
     | some rt =>
       (match asNode (jfield (asNode (jfield (some rt) "val")) "ColumnRef") with
        | some cr =>
          (match jsonColumnRefToColumnUsed (some cr) with
           | some cu => [cu]
           | none => [])
        | none => [])
     | none => [])
    ++ jsonGetColumnsFromReturningList rest

/-- `jsonGetTablesFromSelectStmt` of astjson.go; fuel bounds the `JoinExpr`
nesting depth (the list elements are Go `any` values, hence `Option`). -/
def jsonGetTablesFromSelectStmt : Nat → List (Option Json) → List TableUsed
  | _, [] => []
  | 0, _ :: _ => []
  | f + 1, it :: rest =>
    (match asNode it with
     | none => []
     | some n =>
       (match asNode (jfield (some n) "RangeVar") with
        | some rv => [jsonRangeVarToTableUsed (some rv)]
        | none => []) ++
       (match asNode (jfield (some n) "JoinExpr") with
        | some je =>
          jsonGetTablesFromSelectStmt f [jfield (some je) "larg", jfield (some je) "rarg"]
        | none => []))
    ++ jsonGetTablesFromSelectStmt (f + 1) rest

/-- The `from_clause` loop of `jsonValidateUpdate` (tables only). -/
def updFromTables (f : Nat) : List Json → List TableUsed
  | [] => []
  | it :: rest =>
    (match asNode (some it) with
     | none => []
     | some n =>
       (match asNode (jfield (some n) "RangeVar") with
        | some rv => [jsonRangeVarToTableUsed (some rv)]
        | none => []) ++
       (match asNode (jfield (some n) "JoinExpr") with
        | some je =>
          jsonGetTablesFromSelectStmt f [jfield (some je) "larg", jfield (some je) "rarg"]
        | none => []))
    ++ updFromTables f rest

/-- The `target_list` loop of `jsonValidateUpdate`: one column per
`ResTarget` name, plus a column for a `ColumnRef` value or a param for a
`ParamRef` value. -/
def updTargetLoop (tableName : String) :
    List Json → List ColumnUsed → List QueryParam → List ColumnUsed × List QueryParam
  | [], cols, qps => (cols, qps)
  | it :: rest, cols, qps =>
    match asNode (jfield (asNode (some it)) "ResTarget") with
    | none => updTargetLoop tableName rest cols qps
    | some rt =>
      let cols1 := cols ++
        [⟨getStringField (some rt) "name", tableName, getNumberField (some rt) "location"⟩]
      match asNode (jfield (some rt) "val") with
      | none => updTargetLoop tableName rest cols1 qps
      | some val =>
        let kind := (nodeType (some val)).1
        if kind == "ColumnRef" then
          let cols2 := cols1 ++
            (match jsonColumnRefToColumnUsed (asNode (jfield (some val) "ColumnRef")) with
             | some cu => [cu]
             | none => [])
          updTargetLoop tableName rest cols2 qps
        else if kind == "ParamRef" then
          updTargetLoop tableName rest cols1
            (addQueryParam qps ⟨getNumberField (asNode (jfield (some val) "ParamRef")) "number"⟩)
        else updTargetLoop tableName rest cols1 qps

/-- The `cols` loop of `jsonValidateInsert`: target columns qualified by
the target table. -/
def insTargetCols (tableName : String) : List Json → List ColumnUsed
  | [] => []
  | it :: rest =>
    (match asNode (jfield (asNode (some it)) "ResTarget") with
     | none => []
     | some rt =>
       [⟨getStringField (some rt) "name", tableName, getNumberField (some rt) "location"⟩])
    ++ insTargetCols tableName rest

/-- `relation.relname` resolution shared by UPDATE/INSERT/DELETE. -/
def relTargetName (m : Option JObj) : String :=
  getStringField (getRelationRangeVar (asNode (jfield m "relation"))) "relname"

/-- The shared tail of `jsonValidateInsert`: returning list, column
validation (`validateInsertValues` is a no-op in the source). -/
def insFinish (ctx : VetContext) (inner : InnerSt) (usedTables : List TableUsed)
    (usedCols : List ColumnUsed) (qps : List QueryParam) (ins : Option JObj) :
    VRes (List QueryParam × List ColumnUsed) :=
  let usedCols1 := usedCols ++
    jsonGetColumnsFromReturningList ((jList ins ["returning_list", "returningList"]).getD [])
  match validateTableColumns ctx inner usedTables usedCols1 with
  | some e => .err (.goErr e)
  | none => .ok (qps, usedCols1) inner

/-- The `group_clause` loop of `jsonValidateSelect`. -/
def groupCols : List Json → List ColumnUsed
  | [] => []
  | it :: rest => jsonGetColumnsFromNodeList (asNode (some it)) ++ groupCols rest

/-- The `select_stmt` resolution of `jsonValidateInsert`: the `SelectStmt`
body when wrapped, else the node itself. -/
def insSelNode (ins : Option JObj) : Option JObj :=
  let selNode := jNode ins ["select_stmt", "selectStmt"]
  match asNode (jfield selNode "SelectStmt") with
  | some s => some s
  | none => selNode

/-- The `values_lists` lookup of `jsonValidateInsert`: the value of a
present `values_lists` key (even a null one), else the `valuesLists`
spelling. -/
def insValuesSource (selO : JObj) : Option Json :=
  if hasKey (some selO) "values_lists" then alLookup selO "values_lists"
  else jfield (some selO) "valuesLists"

mutual

/-- `jsonValidateNode` of astjson.go: dispatch on the statement wrapper. -/
def jsonValidateNode (fuel : Nat) (ctx : VetContext) (n : Option JObj) (inner : InnerSt) :
    VRes (List QueryParam × List ColumnUsed) :=
  match fuel with
  | 0 => .err .fuelOut
  | f + 1 =>
    let kind := (nodeType n).1
    let body := (nodeType n).2
    if kind == "SelectStmt" then jsonValidateSelect f ctx body inner
    else if kind == "UpdateStmt" then jsonValidateUpdate f ctx body inner
    else if kind == "InsertStmt" then jsonValidateInsert f ctx body inner
    else if kind == "DeleteStmt" then jsonValidateDelete f ctx body inner
    else .err (.goErr ("unsupported statement: " ++ kind))

/-- The `with_clause` gate at the top of each statement validator. -/
def cteGate (fuel : Nat) (ctx : VetContext) (keys : List String) (m : Option JObj)
    (inner : InnerSt) : VRes Unit :=
  match fuel with
  | 0 => .err .fuelOut
  | f + 1 =>
    match jNode m keys with
    | some w => jsonParseCTE f ctx w inner
    | none => .ok () inner

/-- `jsonParseCTE` of astjson.go. -/
def jsonParseCTE (fuel : Nat) (ctx : VetContext) (withObj : JObj) (inner : InnerSt) :
    VRes Unit :=
  match fuel with
  | 0 => .err .fuelOut
  | f + 1 => cteLoop f ctx ((asList (alLookup withObj "ctes")).getD []) inner

/-- The `ctes` loop of `jsonParseCTE`: validate each CTE body (its params
are discarded: the source binds them to `_`), then register the CTE name
as a read-only table whose columns are the projected columns. -/
def cteLoop (fuel : Nat) (ctx : VetContext) (ctes : List Json) (inner : InnerSt) :
    VRes Unit :=
  match fuel with
  | 0 => .err .fuelOut
  | f + 1 =>
    match ctes with
    | [] => .ok () inner
    | c :: rest =>
      match asNode (jfield (asNode (some c)) "CommonTableExpr") with
      | none => cteLoop f ctx rest inner
      | some cte =>
        match jsonValidateNode f ctx (asNode (jfield (some cte) "ctequery")) inner with
        | .err e => .err e
        | .ok (_, cols) inner1 =>
          let columns := cols.foldl (fun m col => alInsert m col.column ⟨col.column, ""⟩) []
          let nm := getStringField (some cte) "ctename"
          match inner1 with
          | none => .err .goPanic
          | some m => cteLoop f ctx rest (some (alInsert m nm ⟨nm, columns, true⟩))

/-- A clause stage shared by the validators: optional expression node,
walked into a fresh `ParseResult`; a `goErr` is prefixed with `pfx`;
columns and params are merged into the accumulators. -/
def exprStage (fuel : Nat) (ctx : VetContext) (n : Option JObj) (pfx : Option String)
    (usedCols : List ColumnUsed) (qps : List QueryParam) (inner : InnerSt) :
    VRes (List ColumnUsed × List QueryParam) :=
  match fuel with
  | 0 => .err .fuelOut
  | f + 1 =>
    match n with
    | none => .ok (usedCols, qps) inner
    | some wc =>
      match jsonParseExpr f ctx (some wc) ParseResult.empty inner with
      | .err (.goErr m) => .err (.goErr ((pfx.getD "") ++ m))
      | .err e => .err e
      | .ok re inner1 => .ok (usedCols ++ re.columns, addQueryParams qps re.params) inner1

/-- The `from_clause` loop of `jsonValidateSelect`: a fresh `ParseResult`
per item; its tables extend the local tables, aliased ones also the local
context tables; params are merged. -/
def selFromLoop (fuel : Nat) (ctx : VetContext) (items : List Json)
    (usedCols : List ColumnUsed) (localTables localCtx : List TableUsed)
    (qps : List QueryParam) (inner : InnerSt) :
    VRes (List ColumnUsed × List TableUsed × List TableUsed × List QueryParam) :=
  match fuel with
  | 0 => .err .fuelOut
  | f + 1 =>
    match items with
    | [] => .ok (usedCols, localTables, localCtx, qps) inner
    | it :: rest =>
      match jsonParseFromClause f ctx (asNode (some it)) ParseResult.empty inner with
      | .err e => .err e
      | .ok re inner1 =>
        selFromLoop f ctx rest (usedCols ++ re.columns) (localTables ++ re.tables)
          (localCtx ++ re.tables.filter (fun t => t.aliasName != ""))
          (addQueryParams qps re.params) inner1

/-- The `target_list` loop of `jsonValidateSelect`. -/
def selTargetLoop (fuel : Nat) (ctx : VetContext) (items : List Json)
    (usedCols : List ColumnUsed) (qps : List QueryParam) (inner : InnerSt) :
    VRes (List ColumnUsed × List QueryParam) :=
  match fuel with
  | 0 => .err .fuelOut
  | f + 1 =>
    match items with
    | [] => .ok (usedCols, qps) inner
    | it :: rest =>
      match asNode (jfield (asNode (some it)) "ResTarget") with
      | none => selTargetLoop f ctx rest usedCols qps inner
      | some target =>
        match jsonParseExpr f ctx (asNode (jfield (some target) "val")) ParseResult.empty inner with
        | .err e => .err e
        | .ok re inner1 =>
          selTargetLoop f ctx rest (usedCols ++ re.columns) (addQueryParams qps re.params) inner1

/-- `jsonValidateSelect` of astjson.go.  The outer `ParseResult` created at
the top of the source function is never written to (the loop shadows it),
so the postponed-nodes step at the end reduces to a skip; the source's
debug prints have no modelled effect. -/
def jsonValidateSelect (fuel : Nat) (ctx : VetContext) (sel : Option JObj) (inner : InnerSt) :
    VRes (List QueryParam × List ColumnUsed) :=
  match fuel with
  | 0 => .err .fuelOut
  | f + 1 =>
    let re0 : ParseResult := ParseResult.empty
    match cteGate f ctx ["with_clause", "withClause", "withClause"] sel inner with
    | .err e => .err e
    | .ok _ inner1 =>
      match selFromLoop f ctx ((jList sel ["from_clause", "fromClause", "fromClause"]).getD [])
          [] [] ctx.usedTables [] inner1 with
      | .err e => .err e
      | .ok (usedCols, localTables, localCtx, qps) inner2 =>
        match selTargetLoop f ctx ((jList sel ["target_list", "targetList", "targetList"]).getD [])
            usedCols qps inner2 with
        | .err e => .err e
        | .ok (usedCols1, qps1) inner3 =>
          match exprStage f ctx (jNode sel ["where_clause", "whereClause", "whereClause"])
              (some "invalid WHERE clause: ") usedCols1 qps1 inner3 with
          | .err e => .err e
          | .ok (usedCols2, qps2) inner4 =>
            let usedCols3 := usedCols2 ++
              groupCols ((jList sel ["group_clause", "groupClause", "groupClause"]).getD [])
            match exprStage f ctx (jNode sel ["having_clause", "havingClause", "havingClause"])
                none usedCols3 qps2 inner4 with
            | .err e => .err e
            | .ok (usedCols4, qps3) inner5 =>
              match exprStage f ctx
                  (asNode ((jList sel ["window_clause", "windowClause", "windowClause"]).getD []).head?)
                  none usedCols4 qps3 inner5 with
              | .err e => .err e
              | .ok (usedCols5, qps4) inner6 =>
                let usedCols6 := usedCols5 ++
                  jsonGetColumnsFromSortClause
                    ((jList sel ["sort_clause", "sortClause", "sortClause"]).getD [])
                let st :=
                  match re0.postponed with
                  | some _ => (localTables ++ re0.tables, usedCols6 ++ re0.columns,
                               addQueryParams qps4 re0.params)
                  | none => (localTables, usedCols6, qps4)
                let allTables := st.1 ++ localCtx
                match validateTableColumns ctx inner6 allTables st.2.1 with
                | some e => .err (.goErr e)
                | none => .ok (st.2.2, st.2.1) inner6

/-- `jsonValidateUpdate` of astjson.go. -/
def jsonValidateUpdate (fuel : Nat) (ctx : VetContext) (up : Option JObj) (inner : InnerSt) :
    VRes (List QueryParam × List ColumnUsed) :=
  match fuel with
  | 0 => .err .fuelOut
  | f + 1 =>
    match cteGate f ctx ["with_clause", "withClause"] up inner with
    | .err e => .err e
    | .ok _ inner1 =>
      let rv := getRelationRangeVar (asNode (jfield up "relation"))
      let tableName := relTargetName up
      match validateTable ctx tableName true with
      | some e => .err (.goErr e)
      | none =>
        let tableAlias := getStringField (asNode (jfield rv "alias")) "aliasname"
        let usedTables : List TableUsed := [⟨tableName, ""⟩]
        let tcr := updTargetLoop tableName ((jList up ["target_list", "targetList"]).getD []) [] []
        let usedTables1 := usedTables ++ updFromTables f ((jList up ["from_clause", "fromClause"]).getD [])
        match exprStage f ctx (jNode up ["where_clause", "whereClause"])
            (some "invalid WHERE clause: ") tcr.1 tcr.2 inner1 with
        | .err e => .err e
        | .ok (usedCols, qps) inner2 =>
          let usedCols1 := usedCols ++
            jsonGetColumnsFromReturningList ((jList up ["returning_list", "returningList"]).getD [])
          if usedCols1 != [] then
            match validateTableColumns ctx inner2 (usedTables1 ++ [⟨tableName, tableAlias⟩]) usedCols1 with
            | some e => .err (.goErr e)
            | none => .ok (qps, usedCols1) inner2
          else .ok (qps, usedCols1) inner2

/-- The per-row loop of a `values_lists` entry in `jsonValidateInsert`. -/
def insValuesItems (fuel : Nat) (ctx : VetContext) (items : List Json)
    (usedCols : List ColumnUsed) (qps : List QueryParam) (inner : InnerSt) :
    VRes (List ColumnUsed × List QueryParam) :=
  match fuel with
  | 0 => .err .fuelOut
  | f + 1 =>
    match items with
    | [] => .ok (usedCols, qps) inner
    | vnode :: rest =>
      match jsonParseExpr f ctx (asNode (some vnode)) ParseResult.empty inner with
      | .err (.goErr m) => .err (.goErr ("invalid value list: " ++ m))
      | .err e => .err e
      | .ok re inner1 =>
        insValuesItems f ctx rest (usedCols ++ re.columns) (addQueryParams qps re.params) inner1

/-- The `values_lists` loop of `jsonValidateInsert`.  The source reads
`asNode(list)["List"].(map[string]any)` with an unchecked type assertion:
an entry whose `List` field is not an object panics. -/
def insValuesLists (fuel : Nat) (ctx : VetContext) (lists : List Json)
    (targetCols usedCols : List ColumnUsed) (qps : List QueryParam) (inner : InnerSt) :
    VRes (List ColumnUsed × List QueryParam) :=
  match fuel with
  | 0 => .err .fuelOut
  | f + 1 =>
    match lists with
    | [] => .ok (usedCols, qps) inner
    | list :: rest =>
      match jfield (asNode (some list)) "List" with
      | some (Json.obj lm) =>
        let items := (asList (alLookup lm "items")).getD []
        if items.length != targetCols.length then
          .err (.goErr ("column count " ++ toString targetCols.length ++
            " doesn't match value count " ++ toString items.length))
        else
          match insValuesItems f ctx items usedCols qps inner with
          | .err e => .err e
          | .ok (usedCols1, qps1) inner1 =>
            insValuesLists f ctx rest targetCols usedCols1 qps1 inner1
      | _ => .err .goPanic

/-- The select-source `from_clause` loop of `jsonValidateInsert` (columns
and params only; the tables of the `ParseResult` are dropped by the
source here). -/
def insFromLoop (fuel : Nat) (ctx : VetContext) (items : List Json)
    (usedCols : List ColumnUsed) (qps : List QueryParam) (inner : InnerSt) :
    VRes (List ColumnUsed × List QueryParam) :=
  match fuel with
  | 0 => .err .fuelOut
  | f + 1 =>
    match items with
    | [] => .ok (usedCols, qps) inner
    | fc :: rest =>
      match jsonParseFromClause f ctx (asNode (some fc)) ParseResult.empty inner with
      | .err e => .err e
      | .ok re inner1 =>
        insFromLoop f ctx rest (usedCols ++ re.columns) (addQueryParams qps re.params) inner1

/-- The select-source `target_list` loop of `jsonValidateInsert`: a
`ColumnRef` value adds a column, a `SubLink` value validates its subselect
and merges its params (the write-only `values` slice of the source is
omitted). -/
def insTargetLoop (fuel : Nat) (ctx : VetContext) (items : List Json)
    (usedCols : List ColumnUsed) (qps : List QueryParam) (inner : InnerSt) :
    VRes (List ColumnUsed × List QueryParam) :=
  match fuel with
  | 0 => .err .fuelOut
  | f + 1 =>
    match items with
    | [] => .ok (usedCols, qps) inner
    | it :: rest =>
      let target := jfield (asNode (jfield (asNode (some it)) "ResTarget")) "val"
      match asNode target with
      | none => insTargetLoop f ctx rest usedCols qps inner
      | some tv =>
        if hasKey (some tv) "ColumnRef" then
          let usedCols1 := usedCols ++
            (match jsonColumnRefToColumnUsed (asNode (jfield (some tv) "ColumnRef")) with
             | some cu => [cu]
             | none => [])
          insTargetLoop f ctx rest usedCols1 qps inner
        else
          match asNode (jfield (some tv) "SubLink") with
          | some sl =>
            let q := asNode (jfield (some sl) "subselect")
            match jsonValidateSelect f ctx (asNode (jfield q "SelectStmt")) inner with
            | .err (.goErr m) => .err (.goErr ("invalid SELECT query in value list: " ++ m))
            | .err e => .err e
            | .ok (qp, _) inner1 =>
              insTargetLoop f ctx rest usedCols (addQueryParams qps qp) inner1
          | none => insTargetLoop f ctx rest usedCols qps inner

/-- `jsonValidateInsert` of astjson.go. -/
def jsonValidateInsert (fuel : Nat) (ctx : VetContext) (ins : Option JObj) (inner : InnerSt) :
    VRes (List QueryParam × List ColumnUsed) :=
  match fuel with
  | 0 => .err .fuelOut
  | f + 1 =>
    match cteGate f ctx ["with_clause", "withClause"] ins inner with
    | .err e => .err e
    | .ok _ inner1 =>
      let tableName := relTargetName ins
      match validateTable ctx tableName true with
      | some e => .err (.goErr e)
      | none =>
        let usedTables : List TableUsed := [⟨tableName, ""⟩]
        let targetCols := insTargetCols tableName ((asList (jfield ins "cols")).getD [])
        match insSelNode ins with
        | none => .err (.goErr "missing select_stmt")
        | some selO =>
          if !(isNilAny (insValuesSource selO)) then
            match insValuesLists f ctx ((asList (insValuesSource selO)).getD [])
                targetCols targetCols [] inner1 with
            | .err e => .err e
            | .ok (usedCols, qps) inner2 =>
              insFinish ctx inner2 usedTables usedCols qps ins
          else
            let usedTables1 := usedTables ++
              jsonGetTablesFromSelectStmt f
                (((jList (some selO) ["from_clause", "fromClause"]).getD []).map some)
            match insFromLoop f ctx ((jList (some selO) ["from_clause", "fromClause"]).getD [])
                targetCols [] inner1 with
            | .err e => .err e
            | .ok (usedCols, qps) inner2 =>
              match exprStage f ctx (jNode (some selO) ["where_clause", "whereClause"]) none
                  usedCols qps inner2 with
              | .err e => .err e
              | .ok (usedCols1, qps1) inner3 =>
                match insTargetLoop f ctx
                    ((jList (some selO) ["target_list", "targetList"]).getD [])
                    usedCols1 qps1 inner3 with
                | .err e => .err e
                | .ok (usedCols2, qps2) inner4 =>
                  insFinish ctx inner4 usedTables1 usedCols2 qps2 ins

/-- The `using_clause` loop of `jsonValidateDelete` (tables only). -/
def delUsingLoop (fuel : Nat) (ctx : VetContext) (items : List Json)
    (usedTables : List TableUsed) (inner : InnerSt) : VRes (List TableUsed) :=
  match fuel with
  | 0 => .err .fuelOut
  | f + 1 =>
    match items with
    | [] => .ok usedTables inner
    | u :: rest =>
      match jsonParseExpr f ctx (asNode (some u)) ParseResult.empty inner with
      | .err e => .err e
      | .ok re inner1 => delUsingLoop f ctx rest (usedTables ++ re.tables) inner1

/-- `jsonValidateDelete` of astjson.go: a WHERE clause is required, and it
must yield at least one column. -/
def jsonValidateDelete (fuel : Nat) (ctx : VetContext) (del : Option JObj) (inner : InnerSt) :
    VRes (List QueryParam × List ColumnUsed) :=
  match fuel with
  | 0 => .err .fuelOut
  | f + 1 =>
    match cteGate f ctx ["with_clause", "withClause"] del inner with
    | .err e => .err e
    | .ok _ inner1 =>
      let rv := getRelationRangeVar (asNode (jfield del "relation"))
      let tableName := relTargetName del
      match validateTable ctx tableName true with
      | some e => .err (.goErr e)
      | none =>
        match jNode del ["where_clause", "whereClause"] with
        | none => .err (.goErr "no WHERE clause for DELETE")
        | some wc =>
          match jsonParseExpr f ctx (some wc) ParseResult.empty inner1 with
          | .err (.goErr m) => .err (.goErr ("invalid WHERE clause: " ++ m))
          | .err e => .err e
          | .ok re inner2 =>
            match re.columns with
            | [] => .err (.goErr "no columns in DELETE's WHERE clause")
            | _ :: _ =>
              match delUsingLoop f ctx ((jList del ["using_clause", "usingClause"]).getD [])
                  [] inner2 with
              | .err e => .err e
              | .ok usedTables inner3 =>
                let usedCols := re.columns ++
                  jsonGetColumnsFromReturningList
                    ((jList del ["returning_list", "returningList"]).getD [])
                if usedCols != [] then
                  match validateTableColumns ctx inner3
                      (usedTables ++ [⟨tableName, getStringField (asNode (jfield rv "alias")) "aliasname"⟩])
                      usedCols with
                  | some e => .err (.goErr e)
                  | none => .ok (re.params, usedCols) inner3
                else .ok (re.params, usedCols) inner3

/-- The `JoinExpr` case of `jsonParseFromClause`: recurse into `larg` and
`rarg`, then walk the `quals` join condition. -/
def fcJoinExpr (fuel : Nat) (ctx : VetContext) (body : Option JObj)
    (re : ParseResult) (inner : InnerSt) : VRes ParseResult :=
  match fuel with
  | 0 => .err .fuelOut
  | f + 1 =>
    match jsonParseFromClause f ctx (asNode (jfield body "larg")) re inner with
    | .err e => .err e
    | .ok re1 inner1 =>
      match jsonParseFromClause f ctx (asNode (jfield body "rarg")) re1 inner1 with
      | .err e => .err e
      | .ok re2 inner2 =>
        match asNode (jfield body "quals") with
        | some quals => jsonParseExpr f ctx (some quals) re2 inner2
        | none => .ok re2 inner2

/-- The `RangeSubselect` case of `jsonParseFromClause`: a lateral subquery
is validated in a context whose `UsedTables` are the tables already
collected in the per-item `ParseResult`; a non-lateral one in the current
context; an alias registers a read-only derived table in `InnerSchema`. -/
def fcRangeSubselect (fuel : Nat) (ctx : VetContext) (body : Option JObj)
    (re : ParseResult) (inner : InnerSt) : VRes ParseResult :=
  match fuel with
  | 0 => .err .fuelOut
  | f + 1 =>
    let re1 := match re.postponed with
      | none => { re with postponed := some [] }
      | some _ => re
    let subq := asNode (jfield (asNode (jfield body "subquery")) "SelectStmt")
    let subCtx : VetContext :=
      if getBoolField body "lateral" then { ctx with usedTables := re1.tables } else ctx
    match jsonValidateSelect f subCtx subq inner with
    | .err e => .err e
    | .ok (qp, targetCols) inner1 =>
      let re2 := { re1 with params := addQueryParams re1.params qp }
      let als := getStringField (asNode (jfield body "alias")) "aliasname"
      if als != "" then
        let t : Table :=
          ⟨als, targetCols.foldl (fun m c => alInsert m c.column ⟨c.column, ""⟩) [], true⟩
        match inner1 with
        | none => .err .goPanic
        | some m =>
          .ok { re2 with tables := re2.tables ++ [⟨als, ""⟩] } (some (alInsert m als t))
      else .ok re2 inner1

/-- `jsonParseFromClause` of astjson.go: dispatch over a FROM item. -/
def jsonParseFromClause (fuel : Nat) (ctx : VetContext) (n : Option JObj)
    (re : ParseResult) (inner : InnerSt) : VRes ParseResult :=
  match fuel with
  | 0 => .err .fuelOut
  | f + 1 =>
    match n with
    | none => .ok re inner
    | some _ =>
      let body := (nodeType n).2
      match (nodeType n).1 with
      | "RangeVar" =>
        .ok { re with tables := re.tables ++ [jsonRangeVarToTableUsed body] } inner
      | "JoinExpr" => fcJoinExpr f ctx body re inner
      | "RangeSubselect" => fcRangeSubselect f ctx body re inner
      | _ => .ok re inner

/-- The `List` items loop of `jsonParseExpr`. -/
def exprItemsLoop (fuel : Nat) (ctx : VetContext) (items : List Json)
    (re : ParseResult) (inner : InnerSt) : VRes ParseResult :=
  match fuel with
  | 0 => .err .fuelOut
  | f + 1 =>
    match items with
    | [] => .ok re inner
    | it :: rest =>
      match jsonParseExpr f ctx (asNode (some it)) re inner with
      | .err e => .err e
      | .ok re1 inner1 => exprItemsLoop f ctx rest re1 inner1

/-- The window-definition part of `jsonParseExpr` (`FuncCall` `over` and
`WindowDef`): first entries of `partition_clause` and `order_clause`. -/
def windowDefWalk (fuel : Nat) (ctx : VetContext) (wd : Option JObj)
    (re : ParseResult) (inner : InnerSt) : VRes ParseResult :=
  match fuel with
  | 0 => .err .fuelOut
  | f + 1 =>
    let step1 :=
      match (jList wd ["partition_clause", "partitionClause"]).getD [] with
      | [] => VRes.ok re inner
      | pc0 :: _ => jsonParseExpr f ctx (asNode (some pc0)) re inner
    match step1 with
    | .err e => .err e
    | .ok re1 inner1 =>
      match (jList wd ["order_clause", "orderClause"]).getD [] with
      | [] => .ok re1 inner1
      | oc0 :: _ => jsonParseExpr f ctx (asNode (some oc0)) re1 inner1

/-- The `A_Expr` case of `jsonParseExpr`: recurse into `lexpr`, then
`rexpr`. -/
def peAExpr (fuel : Nat) (ctx : VetContext) (body : Option JObj)
    (re : ParseResult) (inner : InnerSt) : VRes ParseResult :=
  match fuel with
  | 0 => .err .fuelOut
  | f + 1 =>
    match jsonParseExpr f ctx (asNode (jfield body "lexpr")) re inner with
    | .err e => .err e
    | .ok re1 inner1 => jsonParseExpr f ctx (asNode (jfield body "rexpr")) re1 inner1

/-- The first-argument-only walk over `args`, shared by `BoolExpr`,
`CoalesceExpr` and the argument part of `FuncCall`: the source returns
right after walking `args[0]`, never visiting the remaining arguments. -/
def firstArgWalk (fuel : Nat) (ctx : VetContext) (body : Option JObj)
    (re : ParseResult) (inner : InnerSt) : VRes ParseResult :=
  match fuel with
  | 0 => .err .fuelOut
  | f + 1 =>
    match (asList (jfield body "args")).getD [] with
    | [] => .ok re inner
    | a0 :: _ => jsonParseExpr f ctx (asNode (some a0)) re inner

/-- The `FuncCall` case of `jsonParseExpr`: first argument, then the
window definition under `over` (the `WindowDef` wrapper or the `over`
body itself). -/
def peFuncCall (fuel : Nat) (ctx : VetContext) (body : Option JObj)
    (re : ParseResult) (inner : InnerSt) : VRes ParseResult :=
  match fuel with
  | 0 => .err .fuelOut
  | f + 1 =>
    match firstArgWalk f ctx body re inner with
    | .err e => .err e
    | .ok re1 inner1 =>
      match asNode (jfield body "over") with
      | some over =>
        windowDefWalk f ctx
          (match asNode (jfield (some over) "WindowDef") with
           | some w => some w
           | none => some over) re1 inner1
      | none => .ok re1 inner1

/-- The `SubLink` case of `jsonParseExpr`: validate the subselect and
merge its params. -/
def peSubLink (fuel : Nat) (ctx : VetContext) (body : Option JObj)
    (re : ParseResult) (inner : InnerSt) : VRes ParseResult :=
  match fuel with
  | 0 => .err .fuelOut
  | f + 1 =>
    match jsonValidateSelect f ctx
        (asNode (jfield (asNode (jfield body "subselect")) "SelectStmt")) inner with
    | .err e => .err e
    | .ok (qp, _) inner1 =>
      .ok { re with params := addQueryParams re.params qp } inner1

/-- `jsonParseExpr` of astjson.go: dispatch over the expression node
kinds; unknown kinds are ignored. -/
def jsonParseExpr (fuel : Nat) (ctx : VetContext) (n : Option JObj)
    (re : ParseResult) (inner : InnerSt) : VRes ParseResult :=
  match fuel with
  | 0 => .err .fuelOut
  | f + 1 =>
    match n with
    | none => .ok re inner
    | some _ =>
      let body := (nodeType n).2
      match (nodeType n).1 with
      | "A_Expr" => peAExpr f ctx body re inner
      | "BoolExpr" => firstArgWalk f ctx body re inner
      | "NullTest" => jsonParseExpr f ctx (asNode (jfield body "arg")) re inner
      | "ColumnRef" =>
        .ok { re with columns := re.columns ++
          (match jsonColumnRefToColumnUsed body with
           | some cu => [cu]
           | none => []) } inner
      | "ParamRef" =>
        .ok { re with params := addQueryParam re.params ⟨getNumberField body "number"⟩ } inner
      | "FuncCall" => peFuncCall f ctx body re inner
      | "TypeCast" => jsonParseExpr f ctx (asNode (jfield body "arg")) re inner
      | "List" => exprItemsLoop f ctx ((asList (jfield body "items")).getD []) re inner
      | "SubLink" => peSubLink f ctx body re inner
      | "CoalesceExpr" => firstArgWalk f ctx body re inner
      | "WindowDef" => windowDefWalk f ctx body re inner
      | "SortBy" => jsonParseExpr f ctx (asNode (jfield body "node")) re inner
      | "JoinExpr" => jsonParseFromClause f ctx n re inner
      | "RangeVar" =>
        .ok { re with tables := re.tables ++ [jsonRangeVarToTableUsed body] } inner
      | "RangeSubselect" => jsonParseFromClause f ctx n re inner
      | _ => .ok re inner

end

/-- `jsonValidateQuery` of astjson.go: exactly one statement, dispatched. -/
def jsonValidateQuery (fuel : Nat) (ctx : VetContext) (root : JObj) (inner : InnerSt) :
    VRes (List QueryParam × List ColumnUsed) :=
  match (asList (alLookup root "stmts")).getD [] with
  | [] => .err (.goErr "empty statement")
  | [s] => jsonValidateNode fuel ctx (asNode (jfield (asNode (some s)) "stmt")) inner
  | _ => .err (.goErr "query contained more than one statement")

/-- The per-statement loop of `ValidateSqlQueries` of vet.go (the string
parsing step is external): each statement is validated with the same
context, so the shared `InnerSchema` state carries over from one statement
to the next. -/
def validateStmts (fuel : Nat) (ctx : VetContext) (stmts : List Json) (inner : InnerSt) :
    VRes (List (List QueryParam)) :=
  match stmts with
  | [] => .ok [] inner
  | s :: rest =>
    match jsonValidateQuery fuel ctx [("stmts", Json.arr [s])] inner with
    | .err e => .err e
    | .ok (qp, _) inner1 =>
      match validateStmts fuel ctx rest inner1 with
      | .err e => .err e
      | .ok out inner2 => .ok (qp :: out) inner2

/-! ### Example schema and ASTs

The schema of the spec's end-to-end scenarios: `users(id, name, email)`,
`posts(id, user_id, title)`, and the read-only view `active_users(id, name)`;
concrete ASTs in the JSON shape `libpg_query` emits. -/

def usersTable : Table :=
  ⟨"users", [("id", ⟨"id", "int4"⟩), ("name", ⟨"name", "text"⟩), ("email", ⟨"email", "text"⟩)], false⟩

def postsTable : Table :=
  ⟨"posts", [("id", ⟨"id", "int4"⟩), ("user_id", ⟨"user_id", "int4"⟩), ("title", ⟨"title", "text"⟩)], false⟩

def activeUsersTable : Table :=
  ⟨"active_users", [("id", ⟨"id", ""⟩), ("name", ⟨"name", ""⟩)], true⟩

def exSchema : List (String × Table) :=
  [("users", usersTable), ("posts", postsTable), ("active_users", activeUsersTable)]

/-- A context over the example schema, as built by `NewContext`. -/
def exCtx : VetContext := ⟨some exSchema, []⟩

/-- A context with a nil outer schema, as built by `NewContext(nil)`. -/
def ctx0 : VetContext := ⟨none, []⟩

/-- `{"ParamRef": {"number": n}}`. -/
def pRef (n : Int) : Json := Json.obj [("ParamRef", Json.obj [("number", Json.num n)])]

/-- `{"A_Expr": {"lexpr": l, "rexpr": r}}`. -/
def aExpr (l r : Json) : Json := Json.obj [("A_Expr", Json.obj [("lexpr", l), ("rexpr", r)])]

/-- A bare-column `ColumnRef`. -/
def colRef1 (c : String) : Json :=
  Json.obj [("ColumnRef", Json.obj [("fields",
    Json.arr [Json.obj [("String", Json.obj [("sval", Json.str c)])]])])]

/-- A qualified `table.column` `ColumnRef`. -/
def colRef2 (t c : String) : Json :=
  Json.obj [("ColumnRef", Json.obj [("fields",
    Json.arr [Json.obj [("String", Json.obj [("sval", Json.str t)])],
              Json.obj [("String", Json.obj [("sval", Json.str c)])]])])]

/-- `{"RangeVar": {"relname": n}}`. -/
def rangeVar (n : String) : Json := Json.obj [("RangeVar", Json.obj [("relname", Json.str n)])]

/-- A `RangeVar` with an alias. -/
def rangeVarA (n a : String) : Json :=
  Json.obj [("RangeVar", Json.obj [("relname", Json.str n),
    ("alias", Json.obj [("aliasname", Json.str a)])])]

/-- `{"ResTarget": {"val": v}}`. -/
def resTarget (v : Json) : Json := Json.obj [("ResTarget", Json.obj [("val", v)])]

/-- `{"SelectStmt": fields}`. -/
def selStmt (fields : JObj) : Json := Json.obj [("SelectStmt", Json.obj fields)]

/-- The parse-tree root `{"stmts": [{"stmt": s}]}` for one statement. -/
def stmtRoot (s : Json) : JObj := [("stmts", Json.arr [Json.obj [("stmt", s)]])]

/-- The body of `WITH recent AS (SELECT id FROM users WHERE id > dollar-1)
SELECT id FROM recent WHERE id = dollar-2`. -/
def c2Sel : Json :=
  selStmt
    [("withClause", Json.obj [("ctes", Json.arr [Json.obj [("CommonTableExpr", Json.obj
        [("ctename", Json.str "recent"),
         ("ctequery", selStmt
           [("targetList", Json.arr [resTarget (colRef1 "id")]),
            ("fromClause", Json.arr [rangeVar "users"]),
            ("whereClause", aExpr (colRef1 "id") (pRef 1))])])]])]),
     ("targetList", Json.arr [resTarget (colRef1 "id")]),
     ("fromClause", Json.arr [rangeVar "recent"]),
     ("whereClause", aExpr (colRef1 "id") (pRef 2))]

/-- The `recent` CTE table as registered by validating `c2Sel`. -/
def recentTable : Table := ⟨"recent", [("id", ⟨"id", ""⟩)], true⟩

/-- The body of `SELECT u.id FROM users u, LATERAL (SELECT p.id FROM posts p
WHERE p.user_id = u.id) q`. -/
def c3Sel : Json :=
  selStmt
    [("targetList", Json.arr [resTarget (colRef2 "u" "id")]),
     ("fromClause", Json.arr
       [rangeVarA "users" "u",
        Json.obj [("RangeSubselect", Json.obj
          [("lateral", Json.bool true),
           ("alias", Json.obj [("aliasname", Json.str "q")]),
           ("subquery", selStmt
             [("targetList", Json.arr [resTarget (colRef2 "p" "id")]),
              ("fromClause", Json.arr [rangeVarA "posts" "p"]),
              ("whereClause", aExpr (colRef2 "p" "user_id") (colRef2 "u" "id"))])])]])]

/-- An INSERT whose `values_lists` entry is not a well-formed `List` node. -/
def c4Ins : JObj :=
  [("relation", rangeVar "users"),
   ("select_stmt", selStmt [("values_lists", Json.arr [Json.num 5])])]

/-- `WITH recent AS (SELECT id FROM users) SELECT id FROM recent`. -/
def c5Stmt1 : Json :=
  selStmt
    [("withClause", Json.obj [("ctes", Json.arr [Json.obj [("CommonTableExpr", Json.obj
        [("ctename", Json.str "recent"),
         ("ctequery", selStmt
           [("targetList", Json.arr [resTarget (colRef1 "id")]),
            ("fromClause", Json.arr [rangeVar "users"])])])]])]),
     ("targetList", Json.arr [resTarget (colRef1 "id")]),
     ("fromClause", Json.arr [rangeVar "recent"])]

/-- `SELECT id FROM recent` — resolves only if `recent` is still registered. -/
def c5Stmt2 : Json :=
  selStmt
    [("targetList", Json.arr [resTarget (colRef1 "id")]),
     ("fromClause", Json.arr [rangeVar "recent"])]

/-- A statement whose placeholders are discovered in the order 1, 3, 1, 2. -/
def c6Sel : Json :=
  selStmt [("whereClause", aExpr (aExpr (pRef 1) (pRef 3)) (aExpr (pRef 1) (pRef 2)))]

/-- The params list of a validation outcome, `none` on an abnormal end. -/
def runParams (r : VRes (List QueryParam × List ColumnUsed)) : Option (List QueryParam) :=
  match r with
  | .ok (qp, _) _ => some qp
  | .err _ => none

/-! ### Claims -/

/-- C1 (counterexample): a top-level `DropStmt` does not validate with
empty params and no error; it returns the unsupported-statement error. -/
theorem c1_dropstmt_rejected :
    jsonValidateNode 2 exCtx (some [("DropStmt", Json.obj [])]) (some []) =
      .err (.goErr "unsupported statement: DropStmt") := rfl

/-- C1 (amended): every statement kind other than
SELECT/UPDATE/INSERT/DELETE — `DropStmt`, `TruncateStmt`, `AlterTableStmt`,
`CreateSchemaStmt`, `VariableSetStmt` included — is rejected with the
`unsupported statement` error naming the kind; there is no accepted
list. -/
theorem c1_unsupported_kinds (f : Nat) (ctx : VetContext) (kind : String) (v : Json)
    (rest : JObj) (inner : InnerSt)
    (h : kind ∉ (["SelectStmt", "UpdateStmt", "InsertStmt", "DeleteStmt"] : List String)) :
    jsonValidateNode (f + 1) ctx (some ((kind, v) :: rest)) inner =
      .err (.goErr ("unsupported statement: " ++ kind)) := by
  simp only [List.mem_cons, List.not_mem_nil, or_false, not_or] at h
  obtain ⟨h1, h2, h3, h4⟩ := h
  simp [jsonValidateNode, nodeType, h1, h2, h3, h4]

/-- C1 witness: `TruncateStmt` at a concrete input. -/
theorem c1_unsupported_kinds_witness :
    ("TruncateStmt" ∉ (["SelectStmt", "UpdateStmt", "InsertStmt", "DeleteStmt"] : List String)) ∧
    jsonValidateNode 2 exCtx (some [("TruncateStmt", Json.obj [])]) (some []) =
      .err (.goErr "unsupported statement: TruncateStmt") :=
  ⟨by decide, c1_unsupported_kinds 1 exCtx "TruncateStmt" (Json.obj []) [] (some []) (by decide)⟩

/-- C2 (counterexample): the WITH example does not return params `[1, 2]`:
the CTE's placeholder is dropped. -/
theorem c2_cte_params_dropped :
    runParams (jsonValidateQuery 32 exCtx (stmtRoot c2Sel) (some [])) ≠
      some [⟨1⟩, ⟨2⟩] := by
  have h : runParams (jsonValidateQuery 32 exCtx (stmtRoot c2Sel) (some [])) = some [⟨2⟩] := rfl
  rw [h]; decide

/-- C2 (amended): each CTE validates recursively and registers under its
name in `InnerSchema` with the projected columns, but the CTE's own
parameter placeholders are discarded, not merged into the statement's
params: the WITH example validates with no error, registers `recent`, and
returns params `[2]` only. -/
theorem c2_cte_validated_params_discarded :
    jsonValidateQuery 32 exCtx (stmtRoot c2Sel) (some []) =
      .ok ([⟨2⟩], [⟨"id", "", 0⟩, ⟨"id", "", 0⟩]) (some [("recent", recentTable)]) := rfl

/-- C3 (code behaviour at the failing input): the comma-form LATERAL
example errors, because the `from_clause` loop gives each item a fresh
`ParseResult`, so the lateral context never contains the preceding sibling
`users u` and `u.id` cannot resolve. -/
theorem c3_lateral_sibling_scope_lost :
    jsonValidateQuery 32 exCtx (stmtRoot c3Sel) (some []) =
      .err (.goErr "table `u` not available for query") := rfl

/-- C4 (code behaviour at the failing input): an INSERT whose
`values_lists` entry is not a well-formed `List` node hits the unchecked
type assertion and panics instead of returning normally. -/
theorem c4_malformed_values_list_panics :
    jsonValidateNode 32 exCtx (some [("InsertStmt", Json.obj c4Ins)]) (some []) =
      .err .goPanic := rfl

/-- C5 (counterexample): a CTE registered while validating the first
statement stays visible to the next top-level statement — the two-statement
batch succeeds, while the second statement alone (fresh `InnerSchema`)
fails with an invalid-table error. -/
theorem c5_cte_leaks_across_statements :
    validateStmts 32 exCtx [Json.obj [("stmt", c5Stmt1)], Json.obj [("stmt", c5Stmt2)]]
        (some []) = .ok [[], []] (some [("recent", recentTable)]) ∧
    jsonValidateQuery 32 exCtx (stmtRoot c5Stmt2) (some []) =
      .err (.goErr "invalid table name: recent") :=
  ⟨rfl, rfl⟩

/-- C5 (amended): entries added to `InnerSchema` during a statement's
validation persist for the rest of the run: the first statement registers
`recent` and a subsequent statement validated with that state resolves
`recent` via `InnerSchema` (the outer Schema is read-only throughout the
embedding, matching the absence of any write to `Schema.Tables` in the
source). -/
theorem c5_inner_schema_persists :
    jsonValidateQuery 32 exCtx (stmtRoot c5Stmt1) (some []) =
      .ok ([], [⟨"id", "", 0⟩]) (some [("recent", recentTable)]) ∧
    jsonValidateQuery 32 exCtx (stmtRoot c5Stmt2) (some [("recent", recentTable)]) =
      .ok ([], [⟨"id", "", 0⟩]) (some [("recent", recentTable)]) :=
  ⟨rfl, rfl⟩

/-- C9 (counterexample): a `BoolExpr` (and a `CoalesceExpr`) with two
`ParamRef` arguments yields only the first parameter: the second argument
is never walked. -/
theorem c9_only_first_arg_walked :
    jsonParseExpr 8 ctx0 (some [("BoolExpr", Json.obj [("args", Json.arr [pRef 1, pRef 2])])])
      ParseResult.empty (some []) = .ok ⟨[], [], [⟨1⟩], none⟩ (some []) ∧
    jsonParseExpr 8 ctx0 (some [("CoalesceExpr", Json.obj [("args", Json.arr [pRef 1, pRef 2])])])
      ParseResult.empty (some []) = .ok ⟨[], [], [⟨1⟩], none⟩ (some []) ∧
    (⟨2⟩ : QueryParam) ∉ ([⟨1⟩] : List QueryParam) :=
  ⟨rfl, rfl, by decide⟩

/-- C9 (amended): for `BoolExpr` and `CoalesceExpr` the expression walker
recurses into the first element of `args` only — the walk's result is that
of walking `args[0]`, whatever the remaining arguments are. -/
theorem c9_first_arg_only (f : Nat) (ctx : VetContext) (v : Json) (tail : JObj)
    (re : ParseResult) (inner : InnerSt) (a0 : Json) (rest : List Json)
    (h : asList (jfield (asNode (some v)) "args") = some (a0 :: rest)) :
    jsonParseExpr (f + 2) ctx (some (("BoolExpr", v) :: tail)) re inner =
      jsonParseExpr f ctx (asNode (some a0)) re inner ∧
    jsonParseExpr (f + 2) ctx (some (("CoalesceExpr", v) :: tail)) re inner =
      jsonParseExpr f ctx (asNode (some a0)) re inner := by
  constructor <;> simp [jsonParseExpr, firstArgWalk, nodeType, h]

/-- C9 witness: the amended statement at the two-`ParamRef` input. -/
theorem c9_first_arg_only_witness :
    asList (jfield (asNode (some (Json.obj [("args", Json.arr [pRef 1, pRef 2])]))) "args") =
      some (pRef 1 :: [pRef 2]) ∧
    jsonParseExpr 8 ctx0 (some [("BoolExpr", Json.obj [("args", Json.arr [pRef 1, pRef 2])])])
      ParseResult.empty (some []) =
      jsonParseExpr 6 ctx0 (asNode (some (pRef 1))) ParseResult.empty (some []) :=
  ⟨rfl, (c9_first_arg_only 6 ctx0 (Json.obj [("args", Json.arr [pRef 1, pRef 2])]) []
    ParseResult.empty (some []) (pRef 1) [pRef 2] rfl).1⟩

/-- C10: with a nil outer schema map, table validation and table/column
validation succeed on every input: no invalid-table, read-only-table,
table-unavailable or column-not-found error can be raised. -/
theorem c10_nil_schema_no_checks (ctx : VetContext) (h : ctx.schemaTables = none) :
    (∀ tname w, validateTable ctx tname w = none) ∧
    (∀ inner tables cols, validateTableColumns ctx inner tables cols = none) := by
  refine ⟨fun tname w => ?_, fun inner tables cols => ?_⟩
  · simp [validateTable, h]
  · cases inner <;> simp [validateTableColumns, h]

/-- C10 witness: a nil-schema context accepts an unknown table and an
unknown column. -/
theorem c10_nil_schema_no_checks_witness :
    ctx0.schemaTables = none ∧
    validateTable ctx0 "ghost" true = none ∧
    validateTableColumns ctx0 (some []) [⟨"ghost", ""⟩] [⟨"zzz", "ghost", 0⟩] = none :=
  ⟨rfl, (c10_nil_schema_no_checks ctx0 rfl).1 "ghost" true,
   (c10_nil_schema_no_checks ctx0 rfl).2 (some []) [⟨"ghost", ""⟩] [⟨"zzz", "ghost", 0⟩]⟩

/-- C7: a DELETE statement whose preceding stages (WITH processing and
target-table validation) succeed fails with `no WHERE clause for DELETE`
when it has no WHERE clause, and with `no columns in DELETE's WHERE clause`
when the WHERE clause walk yields zero column references. -/
theorem c7_delete_where_guard :
    (∀ f ctx del inner inner1,
      cteGate f ctx ["with_clause", "withClause"] del inner = .ok () inner1 →
      validateTable ctx (relTargetName del) true = none →
      jNode del ["where_clause", "whereClause"] = none →
      jsonValidateDelete (f + 1) ctx del inner = .err (.goErr "no WHERE clause for DELETE")) ∧
    (∀ f ctx del inner inner1 wc re inner2,
      cteGate f ctx ["with_clause", "withClause"] del inner = .ok () inner1 →
      validateTable ctx (relTargetName del) true = none →
      jNode del ["where_clause", "whereClause"] = some wc →
      jsonParseExpr f ctx (some wc) ParseResult.empty inner1 = .ok re inner2 →
      re.columns = [] →
      jsonValidateDelete (f + 1) ctx del inner =
        .err (.goErr "no columns in DELETE's WHERE clause")) := by
  constructor
  · intro f ctx del inner inner1 h1 h2 h3
    simp [jsonValidateDelete, h1, h2, h3]
  · intro f ctx del inner inner1 wc re inner2 h1 h2 h3 h4 h5
    simp [jsonValidateDelete, h1, h2, h3, h4, h5]

/-- C7 witness: `DELETE FROM users` and `DELETE FROM users WHERE TRUE`
(a WHERE clause that mentions no column). -/
theorem c7_delete_where_guard_witness :
    (cteGate 7 exCtx ["with_clause", "withClause"] (some [("relation", rangeVar "users")])
       (some []) = .ok () (some []) ∧
     validateTable exCtx (relTargetName (some [("relation", rangeVar "users")])) true = none ∧
     jNode (some [("relation", rangeVar "users")]) ["where_clause", "whereClause"] = none ∧
     jsonValidateDelete 8 exCtx (some [("relation", rangeVar "users")]) (some []) =
       .err (.goErr "no WHERE clause for DELETE")) ∧
    (jsonParseExpr 7 exCtx (some [("A_Const", Json.obj [])]) ParseResult.empty (some []) =
       .ok ParseResult.empty (some []) ∧
     jsonValidateDelete 8 exCtx
       (some [("relation", rangeVar "users"),
              ("whereClause", Json.obj [("A_Const", Json.obj [])])]) (some []) =
       .err (.goErr "no columns in DELETE's WHERE clause")) :=
  ⟨⟨rfl, rfl, rfl,
    c7_delete_where_guard.1 7 exCtx (some [("relation", rangeVar "users")]) (some []) (some [])
      rfl rfl rfl⟩,
   ⟨rfl,
    c7_delete_where_guard.2 7 exCtx
      (some [("relation", rangeVar "users"),
             ("whereClause", Json.obj [("A_Const", Json.obj [])])])
      (some []) (some []) [("A_Const", Json.obj [])] ParseResult.empty (some [])
      rfl rfl rfl rfl rfl⟩⟩

/-- C8: an UPDATE, INSERT or DELETE whose WITH stage succeeds and whose
target table exists in the outer schema with `read_only = true` fails with
the read-only-table error naming that table. -/
theorem c8_readonly_target_rejected (f : Nat) (ctx : VetContext) (m : Option JObj)
    (inner inner1 : InnerSt) (sts : List (String × Table)) (t : Table)
    (h1 : cteGate f ctx ["with_clause", "withClause"] m inner = .ok () inner1)
    (h2 : ctx.schemaTables = some sts)
    (h3 : alLookup sts (relTargetName m) = some t)
    (h4 : t.readOnly = true) :
    jsonValidateUpdate (f + 1) ctx m inner =
      .err (.goErr ("read-only table: " ++ relTargetName m)) ∧
    jsonValidateInsert (f + 1) ctx m inner =
      .err (.goErr ("read-only table: " ++ relTargetName m)) ∧
    jsonValidateDelete (f + 1) ctx m inner =
      .err (.goErr ("read-only table: " ++ relTargetName m)) := by
  have hv : validateTable ctx (relTargetName m) true =
      some ("read-only table: " ++ relTargetName m) := by
    simp [validateTable, h2, h3, h4]
  refine ⟨?_, ?_, ?_⟩
  · simp [jsonValidateUpdate, h1, hv]
  · simp [jsonValidateInsert, h1, hv]
  · simp [jsonValidateDelete, h1, hv]

/-- C8 witness: `UPDATE active_users SET name = 'x' WHERE id = 1` against
the example schema, where `active_users` is a read-only view. -/
theorem c8_readonly_target_rejected_witness :
    (cteGate 7 exCtx ["with_clause", "withClause"]
       (some [("relation", rangeVar "active_users")]) (some []) = .ok () (some []) ∧
     exCtx.schemaTables = some exSchema ∧
     alLookup exSchema (relTargetName (some [("relation", rangeVar "active_users")])) =
       some activeUsersTable ∧
     activeUsersTable.readOnly = true) ∧
    jsonValidateUpdate 8 exCtx (some [("relation", rangeVar "active_users")]) (some []) =
      .err (.goErr "read-only table: active_users") :=
  ⟨⟨rfl, rfl, rfl, rfl⟩,
   (c8_readonly_target_rejected 7 exCtx (some [("relation", rangeVar "active_users")])
     (some []) (some []) exSchema activeUsersTable rfl rfl rfl rfl).1⟩

/-! ### C6: the returned params list is strictly ascending -/

/-- Strictly ascending parameter numbers: sorted, no duplicates. -/
def SortedQP (ps : List QueryParam) : Prop :=
  List.Pairwise (fun a b => a.number < b.number) ps

theorem sortedQP_nil : SortedQP [] := List.Pairwise.nil

theorem mem_addQueryParam {ps : List QueryParam} {p x : QueryParam}
    (h : x ∈ addQueryParam ps p) : x = p ∨ x ∈ ps := by
  induction ps with
  | nil => simpa [addQueryParam] using h
  | cons q rest ih =>
    simp only [addQueryParam] at h
    split at h
    · exact Or.inr h
    · split at h
      · rcases List.mem_cons.mp h with rfl | h2
        · exact Or.inl rfl
        · exact Or.inr h2
      · rcases List.mem_cons.mp h with rfl | h2
        · exact Or.inr (List.mem_cons_self _ _)
        · rcases ih h2 with h3 | h3
          · exact Or.inl h3
          · exact Or.inr (List.mem_cons_of_mem _ h3)

theorem sortedQP_addQueryParam {ps : List QueryParam} {p : QueryParam}
    (h : SortedQP ps) : SortedQP (addQueryParam ps p) := by
  induction ps with
  | nil => simp [addQueryParam, SortedQP]
  | cons q rest ih =>
    rcases List.pairwise_cons.mp h with ⟨hq, hrest⟩
    simp only [addQueryParam]
    split
    · exact h
    · next hne =>
      split
      · next hlt =>
        refine List.pairwise_cons.mpr ⟨?_, h⟩
        intro x hx
        rcases List.mem_cons.mp hx with rfl | hx
        · exact hlt
        · exact lt_trans hlt (hq x hx)
      · next hge =>
        refine List.pairwise_cons.mpr ⟨?_, ih hrest⟩
        intro x hx
        rcases mem_addQueryParam hx with rfl | hx
        · exact lt_of_le_of_ne (not_lt.mp hge) (fun e => hne e)
        · exact hq x hx

theorem sortedQP_addQueryParams (qs : List QueryParam) :
    ∀ {ps : List QueryParam}, SortedQP ps → SortedQP (addQueryParams ps qs) := by
  induction qs with
  | nil => intro ps h; simpa [addQueryParams] using h
  | cons p rest ih =>
    intro ps h
    simpa [addQueryParams] using ih (sortedQP_addQueryParam h)

/-- The expression walker, the FROM-clause walker and their helpers only
ever extend a `ParseResult`'s params through `addQueryParam` and
`addQueryParams`, so a strictly ascending params list stays strictly
ascending through any walk. -/
theorem parse_params_sorted : ∀ f : Nat,
    (∀ ctx n re inner re2 st, jsonParseExpr f ctx n re inner = .ok re2 st →
      SortedQP re.params → SortedQP re2.params) ∧
    (∀ ctx n re inner re2 st, jsonParseFromClause f ctx n re inner = .ok re2 st →
      SortedQP re.params → SortedQP re2.params) ∧
    (∀ ctx items re inner re2 st, exprItemsLoop f ctx items re inner = .ok re2 st →
      SortedQP re.params → SortedQP re2.params) ∧
    (∀ ctx wd re inner re2 st, windowDefWalk f ctx wd re inner = .ok re2 st →
      SortedQP re.params → SortedQP re2.params) ∧
    (∀ ctx b re inner re2 st, peAExpr f ctx b re inner = .ok re2 st →
      SortedQP re.params → SortedQP re2.params) ∧
    (∀ ctx b re inner re2 st, firstArgWalk f ctx b re inner = .ok re2 st →
      SortedQP re.params → SortedQP re2.params) ∧
    (∀ ctx b re inner re2 st, peFuncCall f ctx b re inner = .ok re2 st →
      SortedQP re.params → SortedQP re2.params) ∧
    (∀ ctx b re inner re2 st, peSubLink f ctx b re inner = .ok re2 st →
      SortedQP re.params → SortedQP re2.params) ∧
    (∀ ctx b re inner re2 st, fcJoinExpr f ctx b re inner = .ok re2 st →
      SortedQP re.params → SortedQP re2.params) ∧
    (∀ ctx b re inner re2 st, fcRangeSubselect f ctx b re inner = .ok re2 st →
      SortedQP re.params → SortedQP re2.params) := by
  intro f
  induction f with
  | zero =>
    exact ⟨fun ctx a re inner re2 st h hs => VRes.noConfusion h,
           fun ctx a re inner re2 st h hs => VRes.noConfusion h,
           fun ctx a re inner re2 st h hs => VRes.noConfusion h,
           fun ctx a re inner re2 st h hs => VRes.noConfusion h,
           fun ctx a re inner re2 st h hs => VRes.noConfusion h,
           fun ctx a re inner re2 st h hs => VRes.noConfusion h,
           fun ctx a re inner re2 st h hs => VRes.noConfusion h,
           fun ctx a re inner re2 st h hs => VRes.noConfusion h,
           fun ctx a re inner re2 st h hs => VRes.noConfusion h,
           fun ctx a re inner re2 st h hs => VRes.noConfusion h⟩
  | succ f ih =>
    obtain ⟨ihE, ihF, ihL, ihW, ihA, ihFA, ihFC, ihSL, ihFJ, ihFRS⟩ := ih
    refine ⟨?_, ?_, ?_, ?_, ?_, ?_, ?_, ?_, ?_, ?_⟩
    · -- jsonParseExpr
      intro ctx n re inner re2 st h hs
      cases n with
      | none =>
        simp only [jsonParseExpr, VRes.ok.injEq] at h
        obtain ⟨rfl, rfl⟩ := h
        exact hs
      | some l =>
        simp only [jsonParseExpr] at h
        split at h
        · exact ihA _ _ _ _ _ _ h hs
        · exact ihFA _ _ _ _ _ _ h hs
        · exact ihE _ _ _ _ _ _ h hs
        · obtain ⟨rfl, rfl⟩ := VRes.ok.inj h
          exact hs
        · obtain ⟨rfl, rfl⟩ := VRes.ok.inj h
          exact sortedQP_addQueryParam hs
        · exact ihFC _ _ _ _ _ _ h hs
        · exact ihE _ _ _ _ _ _ h hs
        · exact ihL _ _ _ _ _ _ h hs
        · exact ihSL _ _ _ _ _ _ h hs
        · exact ihFA _ _ _ _ _ _ h hs
        · exact ihW _ _ _ _ _ _ h hs
        · exact ihE _ _ _ _ _ _ h hs
        · exact ihF _ _ _ _ _ _ h hs
        · obtain ⟨rfl, rfl⟩ := VRes.ok.inj h
          exact hs
        · exact ihF _ _ _ _ _ _ h hs
        · obtain ⟨rfl, rfl⟩ := VRes.ok.inj h
          exact hs
    · -- jsonParseFromClause
      intro ctx n re inner re2 st h hs
      cases n with
      | none =>
        simp only [jsonParseFromClause, VRes.ok.injEq] at h
        obtain ⟨rfl, rfl⟩ := h
        exact hs
      | some l =>
        simp only [jsonParseFromClause] at h
        split at h
        · obtain ⟨rfl, rfl⟩ := VRes.ok.inj h
          exact hs
        · exact ihFJ _ _ _ _ _ _ h hs
        · exact ihFRS _ _ _ _ _ _ h hs
        · obtain ⟨rfl, rfl⟩ := VRes.ok.inj h
          exact hs
    · -- exprItemsLoop
      intro ctx items re inner re2 st h hs
      cases items with
      | nil =>
        simp only [exprItemsLoop, VRes.ok.injEq] at h
        obtain ⟨rfl, rfl⟩ := h
        exact hs
      | cons it rest =>
        simp only [exprItemsLoop] at h
        split at h
        · exact VRes.noConfusion h
        · rename_i re1 inner1 heq
          exact ihL _ _ _ _ _ _ h (ihE _ _ _ _ _ _ heq hs)
    · -- windowDefWalk
      intro ctx wd re inner re2 st h hs
      simp only [windowDefWalk] at h
      split at h
      · exact VRes.noConfusion h
      · rename_i re1 inner1 heq
        have hs1 : SortedQP re1.params := by
          split at heq
          · obtain ⟨rfl, rfl⟩ := VRes.ok.inj heq
            exact hs
          · exact ihE _ _ _ _ _ _ heq hs
        split at h
        · obtain ⟨rfl, rfl⟩ := VRes.ok.inj h
          exact hs1
        · exact ihE _ _ _ _ _ _ h hs1
    · -- peAExpr
      intro ctx b re inner re2 st h hs
      simp only [peAExpr] at h
      split at h
      · exact VRes.noConfusion h
      · rename_i re1 inner1 heq
        exact ihE _ _ _ _ _ _ h (ihE _ _ _ _ _ _ heq hs)
    · -- firstArgWalk
      intro ctx b re inner re2 st h hs
      simp only [firstArgWalk] at h
      split at h
      · obtain ⟨rfl, rfl⟩ := VRes.ok.inj h
        exact hs
      · exact ihE _ _ _ _ _ _ h hs
    · -- peFuncCall
      intro ctx b re inner re2 st h hs
      simp only [peFuncCall] at h
      split at h
      · exact VRes.noConfusion h
      · rename_i re1 inner1 heq
        have hs1 : SortedQP re1.params := ihFA _ _ _ _ _ _ heq hs
        split at h
        · exact ihW _ _ _ _ _ _ h hs1
        · obtain ⟨rfl, rfl⟩ := VRes.ok.inj h
          exact hs1
    · -- peSubLink
      intro ctx b re inner re2 st h hs
      simp only [peSubLink] at h
      split at h
      · exact VRes.noConfusion h
      · obtain ⟨rfl, rfl⟩ := VRes.ok.inj h
        exact sortedQP_addQueryParams _ hs
    · -- fcJoinExpr
      intro ctx b re inner re2 st h hs
      simp only [fcJoinExpr] at h
      split at h
      · exact VRes.noConfusion h
      · rename_i re1 inner1 heq1
        split at h
        · exact VRes.noConfusion h
        · rename_i re2' inner2 heq2
          have hs2 : SortedQP re2'.params :=
            ihF _ _ _ _ _ _ heq2 (ihF _ _ _ _ _ _ heq1 hs)
          split at h
          · exact ihE _ _ _ _ _ _ h hs2
          · obtain ⟨rfl, rfl⟩ := VRes.ok.inj h
            exact hs2
    · -- fcRangeSubselect
      intro ctx b re inner re2 st h hs
      rcases hpp : re.postponed with _ | pl <;>
        simp only [fcRangeSubselect, hpp] at h <;>
        ( split at h
          · exact VRes.noConfusion h
          · rename_i qp targetCols inner1 heq
            split at h
            · split at h
              · exact VRes.noConfusion h
              · obtain ⟨rfl, rfl⟩ := VRes.ok.inj h
                exact sortedQP_addQueryParams _ hs
            · obtain ⟨rfl, rfl⟩ := VRes.ok.inj h
              exact sortedQP_addQueryParams _ hs )

theorem exprStage_params_sorted {f : Nat} {ctx : VetContext} {n : Option JObj}
    {pfx : Option String} {usedCols : List ColumnUsed} {qps : List QueryParam}
    {inner : InnerSt} {r : List ColumnUsed × List QueryParam} {st : InnerSt}
    (h : exprStage f ctx n pfx usedCols qps inner = .ok r st) (hs : SortedQP qps) :
    SortedQP r.2 := by
  cases f with
  | zero => exact VRes.noConfusion h
  | succ f =>
    cases n with
    | none =>
      simp only [exprStage, VRes.ok.injEq] at h
      obtain ⟨rfl, rfl⟩ := h
      exact hs
    | some wc =>
      simp only [exprStage] at h
      split at h
      · exact VRes.noConfusion h
      · exact VRes.noConfusion h
      · obtain ⟨rfl, rfl⟩ := VRes.ok.inj h
        exact sortedQP_addQueryParams _ hs

theorem selFromLoop_params_sorted : ∀ (f : Nat) {ctx items usedCols lt lc qps inner r st},
    selFromLoop f ctx items usedCols lt lc qps inner = .ok r st →
    SortedQP qps → SortedQP r.2.2.2 := by
  intro f
  induction f with
  | zero => intro ctx items usedCols lt lc qps inner r st h hs; exact VRes.noConfusion h
  | succ f ih =>
    intro ctx items usedCols lt lc qps inner r st h hs
    cases items with
    | nil =>
      simp only [selFromLoop, VRes.ok.injEq] at h
      obtain ⟨rfl, rfl⟩ := h
      exact hs
    | cons it rest =>
      simp only [selFromLoop] at h
      split at h
      · exact VRes.noConfusion h
      · exact ih h (sortedQP_addQueryParams _ hs)

theorem selTargetLoop_params_sorted : ∀ (f : Nat) {ctx items usedCols qps inner r st},
    selTargetLoop f ctx items usedCols qps inner = .ok r st →
    SortedQP qps → SortedQP r.2 := by
  intro f
  induction f with
  | zero => intro ctx items usedCols qps inner r st h hs; exact VRes.noConfusion h
  | succ f ih =>
    intro ctx items usedCols qps inner r st h hs
    cases items with
    | nil =>
      simp only [selTargetLoop, VRes.ok.injEq] at h
      obtain ⟨rfl, rfl⟩ := h
      exact hs
    | cons it rest =>
      simp only [selTargetLoop] at h
      split at h
      · exact ih h hs
      · split at h
        · exact VRes.noConfusion h
        · exact ih h (sortedQP_addQueryParams _ hs)

theorem select_params_sorted {f : Nat} {ctx : VetContext} {sel : Option JObj}
    {inner : InnerSt} {qps : List QueryParam} {cols : List ColumnUsed} {st : InnerSt}
    (h : jsonValidateSelect f ctx sel inner = .ok (qps, cols) st) : SortedQP qps := by
  cases f with
  | zero => exact VRes.noConfusion h
  | succ f =>
    simp only [jsonValidateSelect, ParseResult.empty] at h
    split at h
    · exact VRes.noConfusion h
    · split at h
      · exact VRes.noConfusion h
      · rename_i usedCols1 localTables1 localCtx1 qps1 i1 heq1
        split at h
        · exact VRes.noConfusion h
        · rename_i usedCols2 qps2 i2 heq2
          split at h
          · exact VRes.noConfusion h
          · rename_i usedCols3 qps3 i3 heq3
            split at h
            · exact VRes.noConfusion h
            · rename_i usedCols4 qps4 i4 heq4
              split at h
              · exact VRes.noConfusion h
              · rename_i usedCols5 qps5 i5 heq5
                split at h
                · exact VRes.noConfusion h
                · obtain ⟨h1, rfl⟩ := VRes.ok.inj h
                  obtain ⟨rfl, rfl⟩ := Prod.mk.inj h1
                  exact exprStage_params_sorted heq5
                    (exprStage_params_sorted heq4
                      (exprStage_params_sorted heq3
                        (selTargetLoop_params_sorted f heq2
                          (selFromLoop_params_sorted f heq1 sortedQP_nil))))

theorem updTargetLoop_params_sorted : ∀ (items : List Json) (tableName : String)
    (cols : List ColumnUsed) (qps : List QueryParam), SortedQP qps →
    SortedQP (updTargetLoop tableName items cols qps).2 := by
  intro items
  induction items with
  | nil => intro tn cols qps hs; simpa [updTargetLoop] using hs
  | cons it rest ih =>
    intro tn cols qps hs
    simp only [updTargetLoop]
    split
    · exact ih _ _ _ hs
    · split
      · exact ih _ _ _ hs
      · split_ifs
        · exact ih _ _ _ hs
        · exact ih _ _ _ (sortedQP_addQueryParam hs)
        · exact ih _ _ _ hs

theorem update_params_sorted {f : Nat} {ctx : VetContext} {up : Option JObj}
    {inner : InnerSt} {qps : List QueryParam} {cols : List ColumnUsed} {st : InnerSt}
    (h : jsonValidateUpdate f ctx up inner = .ok (qps, cols) st) : SortedQP qps := by
  cases f with
  | zero => exact VRes.noConfusion h
  | succ f =>
    simp only [jsonValidateUpdate] at h
    split at h
    · exact VRes.noConfusion h
    · split at h
      · exact VRes.noConfusion h
      · split at h
        · exact VRes.noConfusion h
        · rename_i usedCols1 qps1 i1 heq1
          have hbase : SortedQP qps1 :=
            exprStage_params_sorted heq1 (updTargetLoop_params_sorted _ _ _ _ sortedQP_nil)
          split at h
          · split at h
            · exact VRes.noConfusion h
            · obtain ⟨h1, rfl⟩ := VRes.ok.inj h
              obtain ⟨rfl, rfl⟩ := Prod.mk.inj h1
              exact hbase
          · obtain ⟨h1, rfl⟩ := VRes.ok.inj h
            obtain ⟨rfl, rfl⟩ := Prod.mk.inj h1
            exact hbase

theorem insValuesItems_params_sorted : ∀ (f : Nat) {ctx : VetContext} {items : List Json}
    {usedCols : List ColumnUsed} {qps : List QueryParam} {inner : InnerSt}
    {r : List ColumnUsed × List QueryParam} {st : InnerSt},
    insValuesItems f ctx items usedCols qps inner = .ok r st → SortedQP qps → SortedQP r.2 := by
  intro f
  induction f with
  | zero => intro ctx items usedCols qps inner r st h hs; exact VRes.noConfusion h
  | succ f ih =>
    intro ctx items usedCols qps inner r st h hs
    cases items with
    | nil =>
      simp only [insValuesItems, VRes.ok.injEq] at h
      obtain ⟨rfl, rfl⟩ := h
      exact hs
    | cons v rest =>
      simp only [insValuesItems] at h
      split at h
      · exact VRes.noConfusion h
      · exact VRes.noConfusion h
      · exact ih h (sortedQP_addQueryParams _ hs)

theorem insValuesLists_params_sorted : ∀ (f : Nat) {ctx : VetContext} {lists : List Json}
    {targetCols usedCols : List ColumnUsed} {qps : List QueryParam} {inner : InnerSt}
    {r : List ColumnUsed × List QueryParam} {st : InnerSt},
    insValuesLists f ctx lists targetCols usedCols qps inner = .ok r st →
    SortedQP qps → SortedQP r.2 := by
  intro f
  induction f with
  | zero => intro ctx lists targetCols usedCols qps inner r st h hs; exact VRes.noConfusion h
  | succ f ih =>
    intro ctx lists targetCols usedCols qps inner r st h hs
    cases lists with
    | nil =>
      simp only [insValuesLists, VRes.ok.injEq] at h
      obtain ⟨rfl, rfl⟩ := h
      exact hs
    | cons l rest =>
      simp only [insValuesLists] at h
      split at h
      · split at h
        · exact VRes.noConfusion h
        · split at h
          · exact VRes.noConfusion h
          · rename_i usedCols1 qps1 i1 heq
            exact ih h (insValuesItems_params_sorted f heq hs)
      · exact VRes.noConfusion h

theorem insFromLoop_params_sorted : ∀ (f : Nat) {ctx : VetContext} {items : List Json}
    {usedCols : List ColumnUsed} {qps : List QueryParam} {inner : InnerSt}
    {r : List ColumnUsed × List QueryParam} {st : InnerSt},
    insFromLoop f ctx items usedCols qps inner = .ok r st → SortedQP qps → SortedQP r.2 := by
  intro f
  induction f with
  | zero => intro ctx items usedCols qps inner r st h hs; exact VRes.noConfusion h
  | succ f ih =>
    intro ctx items usedCols qps inner r st h hs
    cases items with
    | nil =>
      simp only [insFromLoop, VRes.ok.injEq] at h
      obtain ⟨rfl, rfl⟩ := h
      exact hs
    | cons fc rest =>
      simp only [insFromLoop] at h
      split at h
      · exact VRes.noConfusion h
      · exact ih h (sortedQP_addQueryParams _ hs)

theorem insTargetLoop_params_sorted : ∀ (f : Nat) {ctx : VetContext} {items : List Json}
    {usedCols : List ColumnUsed} {qps : List QueryParam} {inner : InnerSt}
    {r : List ColumnUsed × List QueryParam} {st : InnerSt},
    insTargetLoop f ctx items usedCols qps inner = .ok r st → SortedQP qps → SortedQP r.2 := by
  intro f
  induction f with
  | zero => intro ctx items usedCols qps inner r st h hs; exact VRes.noConfusion h
  | succ f ih =>
    intro ctx items usedCols qps inner r st h hs
    cases items with
    | nil =>
      simp only [insTargetLoop, VRes.ok.injEq] at h
      obtain ⟨rfl, rfl⟩ := h
      exact hs
    | cons it rest =>
      simp only [insTargetLoop] at h
      split at h
      · exact ih h hs
      · split at h
        · exact ih h hs
        · split at h
          · split at h
            · exact VRes.noConfusion h
            · exact VRes.noConfusion h
            · exact ih h (sortedQP_addQueryParams _ hs)
          · exact ih h hs

theorem insFinish_params {ctx : VetContext} {inner : InnerSt} {usedTables : List TableUsed}
    {usedCols : List ColumnUsed} {qps : List QueryParam} {ins : Option JObj}
    {r : List QueryParam × List ColumnUsed} {st : InnerSt}
    (h : insFinish ctx inner usedTables usedCols qps ins = .ok r st) : r.1 = qps := by
  simp only [insFinish] at h
  split at h
  · exact VRes.noConfusion h
  · obtain ⟨h1, rfl⟩ := VRes.ok.inj h
    exact (congrArg Prod.fst h1).symm

theorem insert_params_sorted {f : Nat} {ctx : VetContext} {ins : Option JObj}
    {inner : InnerSt} {qps : List QueryParam} {cols : List ColumnUsed} {st : InnerSt}
    (h : jsonValidateInsert f ctx ins inner = .ok (qps, cols) st) : SortedQP qps := by
  cases f with
  | zero => exact VRes.noConfusion h
  | succ f =>
    simp only [jsonValidateInsert] at h
    split at h
    · exact VRes.noConfusion h
    · split at h
      · exact VRes.noConfusion h
      · split at h
        · exact VRes.noConfusion h
        · split at h
          · -- values_lists branch
            split at h
            · exact VRes.noConfusion h
            · rename_i usedCols1 qps1 i1 heq
              have hs1 : SortedQP qps1 := insValuesLists_params_sorted f heq sortedQP_nil
              have h2 : qps = qps1 := insFinish_params h
              exact h2 ▸ hs1
          · -- select-source branch
            split at h
            · exact VRes.noConfusion h
            · rename_i usedColsA qpsA iA heqA
              split at h
              · exact VRes.noConfusion h
              · rename_i usedColsB qpsB iB heqB
                split at h
                · exact VRes.noConfusion h
                · rename_i usedColsC qpsC iC heqC
                  have hs1 : SortedQP qpsC :=
                    insTargetLoop_params_sorted f heqC
                      (exprStage_params_sorted heqB
                        (insFromLoop_params_sorted f heqA sortedQP_nil))
                  have h2 : qps = qpsC := insFinish_params h
                  exact h2 ▸ hs1

theorem delete_params_sorted {f : Nat} {ctx : VetContext} {del : Option JObj}
    {inner : InnerSt} {qps : List QueryParam} {cols : List ColumnUsed} {st : InnerSt}
    (h : jsonValidateDelete f ctx del inner = .ok (qps, cols) st) : SortedQP qps := by
  cases f with
  | zero => exact VRes.noConfusion h
  | succ f =>
    simp only [jsonValidateDelete, ParseResult.empty] at h
    split at h
    · exact VRes.noConfusion h
    · split at h
      · exact VRes.noConfusion h
      · split at h
        · exact VRes.noConfusion h
        · split at h
          · exact VRes.noConfusion h
          · exact VRes.noConfusion h
          · rename_i re i2 heq
            split at h
            · exact VRes.noConfusion h
            · split at h
              · exact VRes.noConfusion h
              · have hs1 : SortedQP re.params :=
                  (parse_params_sorted f).1 _ _ _ _ _ _ heq sortedQP_nil
                split at h
                · split at h
                  · exact VRes.noConfusion h
                  · obtain ⟨h1, rfl⟩ := VRes.ok.inj h
                    obtain ⟨rfl, rfl⟩ := Prod.mk.inj h1
                    exact hs1
                · obtain ⟨h1, rfl⟩ := VRes.ok.inj h
                  obtain ⟨rfl, rfl⟩ := Prod.mk.inj h1
                  exact hs1

theorem node_params_sorted {f : Nat} {ctx : VetContext} {n : Option JObj}
    {inner : InnerSt} {qps : List QueryParam} {cols : List ColumnUsed} {st : InnerSt}
    (h : jsonValidateNode f ctx n inner = .ok (qps, cols) st) : SortedQP qps := by
  cases f with
  | zero => exact VRes.noConfusion h
  | succ f =>
    simp only [jsonValidateNode] at h
    split_ifs at h
    · exact select_params_sorted h
    · exact update_params_sorted h
    · exact insert_params_sorted h
    · exact delete_params_sorted h

theorem query_params_sorted {f : Nat} {ctx : VetContext} {root : JObj}
    {inner : InnerSt} {qps : List QueryParam} {cols : List ColumnUsed} {st : InnerSt}
    (h : jsonValidateQuery f ctx root inner = .ok (qps, cols) st) : SortedQP qps := by
  simp only [jsonValidateQuery] at h
  split at h
  · exact VRes.noConfusion h
  · exact node_params_sorted h
  · exact VRes.noConfusion h

/-- C6: every successful validation returns a params list that is strictly
ascending by number (sorted, duplicate-free) regardless of discovery
order; in particular a statement whose placeholders appear in the order
1, 3, 1, 2 returns `[1, 2, 3]`. -/
theorem c6_params_sorted :
    (∀ f ctx root inner qps cols st,
      jsonValidateQuery f ctx root inner = .ok (qps, cols) st → SortedQP qps) ∧
    jsonValidateQuery 32 ctx0 (stmtRoot c6Sel) (some []) =
      .ok ([⟨1⟩, ⟨2⟩, ⟨3⟩], []) (some []) :=
  ⟨fun _ _ _ _ _ _ _ h => query_params_sorted h, rfl⟩

/-- C6 witness: the sortedness statement applied at the concrete
1, 3, 1, 2 input. -/
theorem c6_params_sorted_witness :
    SortedQP [⟨1⟩, ⟨2⟩, ⟨3⟩] :=
  c6_params_sorted.1 32 ctx0 (stmtRoot c6Sel) (some []) [⟨1⟩, ⟨2⟩, ⟨3⟩] [] (some []) rfl
